import Mathlib

/-!
Shallow embedding of the AI4GCNpy core (utils.py, agents.py, core.py) and
verification of the frozen specification claims.

Conventions:
* Python `str` is Lean `String`; character-level code works on `List Char`.
* Python `dict` (insertion-ordered) is an association list `Dict V`;
  `dictInsert` updates in place or appends, matching CPython semantics.
* LLM chains and the Neo4j driver are external capabilities; they are
  modelled as oracle fields of an environment record, returning
  `Except Unit _` (`.error` models a raised exception).
* A Python function that can raise returns `Except Unit _` here.
-/

namespace AI4GCNpy

/-! ### Python string helpers -/

/-- Python whitespace class (re `\s` and `str.strip`), ASCII fragment. -/
def isPySpace (c : Char) : Bool :=
  c = ' ' || c = '\t' || c = '\n' || c = '\x0d' || c = '\x0b' || c = '\x0c'

/-- Characters of `str.strip()`: drop whitespace at both ends. -/
def pyStripList (s : List Char) : List Char :=
  (((s.dropWhile isPySpace).reverse).dropWhile isPySpace).reverse

/-- Python `str.strip()`. -/
def pyStrip (s : String) : String :=
  String.mk (pyStripList s.data)

/-! ### Insertion-ordered dictionaries (Python `dict`) -/

/-- Association list standing for a Python `dict` with string keys. -/
abbrev Dict (V : Type) := List (String × V)

/-- Lookup of a key (first occurrence; keys are unique in practice). -/
def dictGet {V : Type} : Dict V → String → Option V
  | [], _ => none
  | (k, v) :: d, key => if k = key then some v else dictGet d key

/-- Lookup with a default value, Python `d.get(key, default)`. -/
def dictGetD {V : Type} (d : Dict V) (key : String) (dflt : V) : V :=
  (dictGet d key).getD dflt

/-- Python `d[key] = v`: overwrite in place if the key exists, else append. -/
def dictInsert {V : Type} : Dict V → String → V → Dict V
  | [], key, v => [(key, v)]
  | (k, w) :: d, key, v =>
    if k = key then (k, v) :: d else (k, w) :: dictInsert d key v

/-- Python `{**a, **b}`: start from `a`, write every entry of `b` in order. -/
def dictMerge {V : Type} (a b : Dict V) : Dict V :=
  b.foldl (fun d kv => dictInsert d kv.1 kv.2) a

/-- Keys in insertion order, Python `d.keys()`. -/
def dictKeys {V : Type} (d : Dict V) : List String :=
  d.map Prod.fst

/-! ### utils.group_paragraphs_by_labels -/

/-- Body of the grouping loop: `grouped[tag] += "\n\n" + para` when the tag
is already present, else `grouped[tag] = para`. -/
def groupStep (grouped : Dict String) (pt : String × String) : Dict String :=
  match dictGet grouped pt.2 with
  | some prev => dictInsert grouped pt.2 (prev ++ "\n\n" ++ pt.1)
  | none => dictInsert grouped pt.2 pt.1

/-- Embedding of `utils.group_paragraphs_by_labels`; `.error` models the
`ValueError` raised on a length mismatch. -/
def group_paragraphs_by_labels (paragraphs tags : List String) :
    Except Unit (Dict String) :=
  if paragraphs.length ≠ tags.length then .error ()
  else .ok ((paragraphs.zip tags).foldl groupStep [])

/-- Order of first occurrence of each distinct label. -/
def firstOccur (tags : List String) : List String :=
  tags.foldl (fun acc t => if t ∈ acc then acc else acc ++ [t]) []

/-- Blank-line join of a nonempty list of paragraphs (none when empty). -/
def joinBlank : List String → Option String
  | [] => none
  | p :: ps => some (ps.foldl (fun a q => a ++ "\n\n" ++ q) p)

/-- Paragraphs carrying a given tag, in original order. -/
def selTag (t : String) (pairs : List (String × String)) : List String :=
  (pairs.filter (fun pt => pt.2 = t)).map Prod.fst

/-! ### Dictionary lemmas -/

theorem dictKeys_cons {V : Type} (k0 : String) (v0 : V) (tl : Dict V) :
    dictKeys ((k0, v0) :: tl) = k0 :: dictKeys tl := rfl

theorem dictGet_insert {V : Type} (d : Dict V) (k : String) (v : V)
    (k' : String) :
    dictGet (dictInsert d k v) k' = if k = k' then some v else dictGet d k' := by
  induction d with
  | nil => simp [dictInsert, dictGet]
  | cons hd tl ih =>
    obtain ⟨k0, v0⟩ := hd
    by_cases h0 : k0 = k
    · subst h0
      by_cases h1 : k0 = k'
      · subst h1; simp [dictInsert, dictGet]
      · simp [dictInsert, dictGet, h1]
    · by_cases h1 : k0 = k'
      · subst h1
        have h2 : ¬ k = k0 := fun h => h0 h.symm
        simp [dictInsert, dictGet, h0, h2]
      · simp [dictInsert, dictGet, h0, h1, ih]

theorem dictGet_none_iff {V : Type} (d : Dict V) (k : String) :
    dictGet d k = none ↔ k ∉ dictKeys d := by
  induction d with
  | nil => simp [dictGet, dictKeys]
  | cons hd tl ih =>
    obtain ⟨k0, v0⟩ := hd
    rw [dictKeys_cons]
    by_cases h0 : k0 = k
    · subst h0
      simp only [dictGet, if_pos rfl, List.mem_cons]
      constructor
      · intro h; exact absurd h (by simp)
      · intro h; simp at h
    · simp only [dictGet, if_neg h0, List.mem_cons, ih]
      constructor
      · intro h hm
        rcases hm with h1 | h2
        · exact h0 h1.symm
        · exact h h2
      · intro h hm; exact h (Or.inr hm)

theorem dictKeys_insert {V : Type} (d : Dict V) (k : String) (v : V) :
    dictKeys (dictInsert d k v) =
      if k ∈ dictKeys d then dictKeys d else dictKeys d ++ [k] := by
  induction d with
  | nil => simp [dictInsert, dictKeys]
  | cons hd tl ih =>
    obtain ⟨k0, v0⟩ := hd
    by_cases h0 : k0 = k
    · subst h0; simp [dictInsert, dictKeys]
    · have h2 : ¬ k = k0 := fun h => h0 h.symm
      rw [dictKeys_cons]
      have hstep : dictInsert ((k0, v0) :: tl) k v = (k0, v0) :: dictInsert tl k v := by
        simp [dictInsert, h0]
      rw [hstep, dictKeys_cons, ih]
      by_cases h1 : k ∈ dictKeys tl
      · simp [h1, h2]
      · simp [h1, h2]

/-- Merging never drops a key absent from the right dict. -/
theorem dictGet_merge_of_notRight {V : Type} (b : Dict V) :
    ∀ (a : Dict V) (k : String), dictGet b k = none →
      dictGet (dictMerge a b) k = dictGet a k := by
  induction b with
  | nil => intro a k _; simp [dictMerge]
  | cons hd tl ih =>
    intro a k hk
    obtain ⟨k0, v0⟩ := hd
    have hstep : dictMerge a ((k0, v0) :: tl) = dictMerge (dictInsert a k0 v0) tl := by
      simp [dictMerge]
    by_cases h0 : k0 = k
    · subst h0; simp [dictGet] at hk
    · simp [dictGet, h0] at hk
      rw [hstep, ih _ _ hk, dictGet_insert, if_neg h0]

/-- Merging writes every (unique-keyed) entry of the right dict. -/
theorem dictGet_merge_of_right {V : Type} (b : Dict V) :
    ∀ (a : Dict V) (k : String) (v : V), (dictKeys b).Nodup →
      dictGet b k = some v → dictGet (dictMerge a b) k = some v := by
  induction b with
  | nil => intro a k v _ h; simp [dictGet] at h
  | cons hd tl ih =>
    intro a k v hnd hk
    obtain ⟨k0, v0⟩ := hd
    have hstep : dictMerge a ((k0, v0) :: tl) = dictMerge (dictInsert a k0 v0) tl := by
      simp [dictMerge]
    rw [dictKeys_cons] at hnd
    have hnd' : (dictKeys tl).Nodup := hnd.of_cons
    by_cases h0 : k0 = k
    · subst h0
      simp [dictGet] at hk
      subst hk
      have hnotin : k0 ∉ dictKeys tl := (List.nodup_cons.mp hnd).1
      have hnone : dictGet tl k0 = none := (dictGet_none_iff tl k0).mpr hnotin
      rw [hstep, dictGet_merge_of_notRight tl _ _ hnone, dictGet_insert, if_pos rfl]
    · simp [dictGet, h0] at hk
      rw [hstep, ih _ _ _ hnd' hk]

/-! ### Grouping lemmas -/

theorem dictKeys_groupStep (g : Dict String) (pt : String × String) :
    dictKeys (groupStep g pt) =
      if pt.2 ∈ dictKeys g then dictKeys g else dictKeys g ++ [pt.2] := by
  unfold groupStep
  cases hg : dictGet g pt.2 with
  | some prev => rw [dictKeys_insert]
  | none => rw [dictKeys_insert]

theorem keys_foldl_groupStep (pairs : List (String × String)) :
    ∀ g : Dict String,
      dictKeys (pairs.foldl groupStep g) =
        (pairs.map Prod.snd).foldl
          (fun acc t => if t ∈ acc then acc else acc ++ [t]) (dictKeys g) := by
  induction pairs with
  | nil => intro g; rfl
  | cons hd tl ih =>
    intro g
    simp only [List.foldl_cons, List.map_cons]
    rw [ih, dictKeys_groupStep]

theorem dictGet_foldl_groupStep (pairs : List (String × String)) :
    ∀ (g : Dict String) (t : String),
      dictGet (pairs.foldl groupStep g) t =
        match dictGet g t with
        | some v => some ((selTag t pairs).foldl (fun a p => a ++ "\n\n" ++ p) v)
        | none => joinBlank (selTag t pairs) := by
  induction pairs with
  | nil =>
    intro g t
    simp only [List.foldl_nil]
    cases hgt : dictGet g t <;> simp [hgt, selTag, joinBlank]
  | cons hd tl ih =>
    intro g t
    obtain ⟨p0, t0⟩ := hd
    simp only [List.foldl_cons]
    rw [ih]
    by_cases ht : t0 = t
    · subst ht
      cases hg : dictGet g t0 with
      | some prev =>
        have hstep : groupStep g (p0, t0) = dictInsert g t0 (prev ++ "\n\n" ++ p0) := by
          simp [groupStep, hg]
        rw [hstep, dictGet_insert, if_pos rfl]
        simp [selTag, joinBlank]
      | none =>
        have hstep : groupStep g (p0, t0) = dictInsert g t0 p0 := by
          simp [groupStep, hg]
        rw [hstep, dictGet_insert, if_pos rfl]
        simp [selTag, joinBlank]
    · have hkeep : dictGet (groupStep g (p0, t0)) t = dictGet g t := by
        unfold groupStep
        cases hg : dictGet g (p0, t0).2 <;> simp [dictGet_insert, ht]
      rw [hkeep]
      have hsel : selTag t ((p0, t0) :: tl) = selTag t tl := by
        simp [selTag, ht]
      rw [hsel]

/-- Claim C4: for equal-length inputs, grouping succeeds; the key order is the
order of first occurrence of each distinct label; and each label maps to the
blank-line join of exactly the paragraphs carrying that label, in their
original relative order (so each paragraph contributes exactly one component
of its label's concatenated text). -/
theorem group_paragraphs_spec (paragraphs tags : List String)
    (hlen : paragraphs.length = tags.length) :
    ∃ g, group_paragraphs_by_labels paragraphs tags = .ok g
      ∧ dictKeys g = firstOccur tags
      ∧ ∀ t, dictGet g t = joinBlank (selTag t (paragraphs.zip tags)) := by
  refine ⟨(paragraphs.zip tags).foldl groupStep [], ?_, ?_, ?_⟩
  · simp [group_paragraphs_by_labels, hlen]
  · rw [keys_foldl_groupStep]
    have hm : (paragraphs.zip tags).map Prod.snd = tags :=
      List.map_snd_zip paragraphs tags (le_of_eq hlen.symm)
    rw [hm]
    rfl
  · intro t
    rw [dictGet_foldl_groupStep]
    rfl

/-- Witness for C4 at the concrete input from the repository test suite. -/
theorem group_paragraphs_spec_witness :
    ∃ g, group_paragraphs_by_labels ["Intro", "Methods", "Results"] ["A", "B", "A"] = .ok g
      ∧ dictKeys g = firstOccur ["A", "B", "A"]
      ∧ ∀ t, dictGet g t =
          joinBlank (selTag t (List.zip ["Intro", "Methods", "Results"] ["A", "B", "A"])) :=
  group_paragraphs_spec ["Intro", "Methods", "Results"] ["A", "B", "A"] rfl

/-! ### utils.header_regex_match

The Python pattern (after VERBOSE-mode whitespace removal) is
`TITLE:\s*(.*?)\s*NUMBER:\s*(.*?)\s*SUBJECT:\s*(.*?)\s*DATE:\s*(.*?)\s*FROM:\s*(.*?)(?:\s*\n|$)`
used with `re.search`, and the FROM field is post-processed with
`re.fullmatch(r'\s*(.*?)\s*<([^>]+)>\s*', from_field)`.

Backtracking is resolved deterministically below; this is equivalent to
CPython's engine for this specific pattern because every literal that
follows a `\s*` begins with a non-whitespace character, so the greedy
whitespace run and the position of the literal are forced, and a greedy
`\s*` placed before a lazy `(.*?)` always succeeds at its maximal extent
whenever any split succeeds (any capture that starts inside the
whitespace run can be shortened to one that starts after it). -/

/-- Matches a literal at the head of the text, returning the remainder. -/
def stripLit : List Char → List Char → Option (List Char)
  | [], s => some s
  | _ :: _, [] => none
  | c :: cs, d :: ds => if d = c then stripLit cs ds else none

/-- Matches `\s*LIT` where `LIT` starts with a non-whitespace character:
skip whitespace until the literal matches. -/
def wsThenLit (lit : List Char) : List Char → Option (List Char)
  | [] => stripLit lit []
  | c :: rest =>
    match stripLit lit (c :: rest) with
    | some r => some r
    | none => if isPySpace c then wsThenLit lit rest else none

/-- Matches a lazy group `(.*?)\s*LIT`: grow the newline-free capture from
the left until `\s*LIT` matches; returns (capture, remainder after LIT). -/
def capThenLit (lit : List Char) : List Char → Option (List Char × List Char)
  | [] => (wsThenLit lit []).map (fun r => ([], r))
  | c :: rest =>
    match wsThenLit lit (c :: rest) with
    | some r => some ([], r)
    | none =>
      if c = '\n' then none
      else (capThenLit lit rest).map (fun pr => (c :: pr.1, pr.2))

/-- Greedy `\s*` (maximal whitespace run). -/
def skipWs : List Char → List Char
  | [] => []
  | c :: rest => if isPySpace c then skipWs rest else c :: rest

/-- Tests whether `(?:\s*\n|$)` matches at this position (`$` without
MULTILINE: end of input, or just before a final newline). -/
def tailTerm (s : List Char) : Bool :=
  (s.takeWhile isPySpace).contains '\n' || s.isEmpty || s = ['\n']

/-- Matches the lazy final group `(.*?)(?:\s*\n|$)`. -/
def capToEnd : List Char → Option (List Char)
  | [] => if tailTerm [] then some [] else none
  | c :: rest =>
    if tailTerm (c :: rest) then some []
    else if c = '\n' then none
    else (capToEnd rest).map (fun cp => c :: cp)

/-- Attempts the full header pattern at one start position; returns the five
capture groups (title, number, subject, date, from). -/
def matchHeaderAt (s : List Char) :
    Option (List Char × List Char × List Char × List Char × List Char) :=
  match stripLit "TITLE:".data s with
  | none => none
  | some r1 =>
    match capThenLit "NUMBER:".data (skipWs r1) with
    | none => none
    | some (title, r2) =>
      match capThenLit "SUBJECT:".data (skipWs r2) with
      | none => none
      | some (number, r3) =>
        match capThenLit "DATE:".data (skipWs r3) with
        | none => none
        | some (subject, r4) =>
          match capThenLit "FROM:".data (skipWs r4) with
          | none => none
          | some (date, r5) =>
            (capToEnd (skipWs r5)).map
              (fun fromF => (title, number, subject, date, fromF))

/-- Leftmost search of the header pattern, as `re.search`. -/
def searchHeader : List Char →
    Option (List Char × List Char × List Char × List Char × List Char)
  | [] => matchHeaderAt []
  | c :: rest =>
    match matchHeaderAt (c :: rest) with
    | some g => some g
    | none => searchHeader rest

/-- Tests `\s*<([^>]+)>\s*` to the end of input at this position, returning
the email capture. -/
def tryAngleAt (s : List Char) : Option (List Char) :=
  match wsThenLit ['<'] s with
  | none => none
  | some r =>
    let email := r.takeWhile (fun c => ¬ c = '>')
    if email.isEmpty then none
    else
      match stripLit ['>'] (r.dropWhile (fun c => ¬ c = '>')) with
      | none => none
      | some r2 => if (skipWs r2).isEmpty then some email else none

/-- Matches the lazy group of `\s*(.*?)\s*<([^>]+)>\s*` (full match),
returning (submitter capture, email capture). -/
def capAngle : List Char → Option (List Char × List Char)
  | [] => (tryAngleAt []).map (fun e => ([], e))
  | c :: rest =>
    match tryAngleAt (c :: rest) with
    | some email => some ([], email)
    | none =>
      if c = '\n' then none
      else (capAngle rest).map (fun pr => (c :: pr.1, pr.2))

/-- Python `re.fullmatch(r'\s*(.*?)\s*<([^>]+)>\s*', from_field)`. -/
def fromFieldMatch (s : List Char) : Option (List Char × List Char) :=
  capAngle (skipWs s)

/-- Embedding of `utils.header_regex_match`; `.error` models the
`ValueError` raised when the pattern does not match. -/
def header_regex_match (header : String) : Except Unit (Dict String) :=
  match searchHeader header.data with
  | none => .error ()
  | some (_, number, subject, date, from_field) =>
    match fromFieldMatch from_field with
    | some (sub, email) =>
      .ok [("circularId", String.mk (pyStripList number)),
           ("subject", String.mk (pyStripList subject)),
           ("createdOn", String.mk (pyStripList date)),
           ("submitter", String.mk (pyStripList sub)),
           ("email", String.mk (pyStripList email))]
    | none =>
      .ok [("circularId", String.mk (pyStripList number)),
           ("subject", String.mk (pyStripList subject)),
           ("createdOn", String.mk (pyStripList date)),
           ("submitter", String.mk (pyStripList from_field)),
           ("email", "")]

/-! ### utils.split_text_into_paragraphs -/

/-- One match step of `re.sub(r'\n\s*\n', '\n\n', text)`: at a position
starting with a newline, the greedy `\s*` followed by `\n` consumes the
whitespace run up to and including its last newline, if the run contains
one. Returns the remainder after the matched region. -/
def blankRunTail (t : List Char) : Option (List Char) :=
  let run := t.takeWhile isPySpace
  if run.contains '\n' then
    let j := (run.reverse.findIdx (fun c => c = '\n'))
    some (t.drop (run.length - j))
  else none

/-- Scanner for `re.sub(r'\n\s*\n', '\n\n', text)`: leftmost,
non-overlapping replacement by a literal blank line.  Written with an
explicit fuel argument (any fuel at least the text length behaves
identically, since every scan step consumes at least one character); this
keeps the recursion structural so that concrete runs reduce in the kernel. -/
def subBlankAux : Nat → List Char → List Char
  | 0, s => s
  | _ + 1, [] => []
  | n + 1, c :: rest =>
    if c = '\n' then
      match blankRunTail rest with
      | some r => '\n' :: '\n' :: subBlankAux n r
      | none => c :: subBlankAux n rest
    else c :: subBlankAux n rest

/-- The `re.sub` scanner at sufficient fuel. -/
def subBlank (s : List Char) : List Char := subBlankAux s.length s

/-- Python `str.split(sep)` for a nonempty separator: leftmost,
non-overlapping splitting.  Fuel-based structural recursion (any fuel at
least the text length behaves identically) so concrete runs reduce in the
kernel. -/
def splitSepAux (sep : List Char) : Nat → List Char → List (List Char)
  | 0, s => [s]
  | _ + 1, [] => [[]]
  | n + 1, c :: rest =>
    match stripLit sep (c :: rest) with
    | some r => [] :: splitSepAux sep n r
    | none =>
      match splitSepAux sep n rest with
      | [] => [[c]]
      | piece :: more => (c :: piece) :: more

/-- Python `s.split(sep)` at sufficient fuel. -/
def pySplitOn (sep s : List Char) : List (List Char) := splitSepAux sep s.length s

/-- Embedding of `utils.split_text_into_paragraphs`. -/
def split_text_into_paragraphs (raw_text : String) : List String :=
  let cleaned_text := subBlank raw_text.data
  ((pySplitOn "\n\n".data cleaned_text).map
    (fun p => String.mk (pyStripList p))).filter (fun p => ¬ p = "")

/-- Claim C8: the header parser maps the five-field example input with an
angle-bracketed FROM field to the expected record; without the angle-bracket
suffix it yields an empty email and the whole FROM field as submitter; and
any header text on which the fixed five-field pattern search fails raises a
parse error. -/
theorem header_regex_match_spec :
    header_regex_match
        "TITLE: GCN CIRCULAR\nNUMBER: 12345\nSUBJECT: X\nDATE: D\nFROM: Name <e@x.com>" =
      .ok [("circularId", "12345"), ("subject", "X"), ("createdOn", "D"),
           ("submitter", "Name"), ("email", "e@x.com")]
  ∧ header_regex_match
        "TITLE: GCN CIRCULAR\nNUMBER: 12345\nSUBJECT: X\nDATE: D\nFROM: Name" =
      .ok [("circularId", "12345"), ("subject", "X"), ("createdOn", "D"),
           ("submitter", "Name"), ("email", "")]
  ∧ ∀ header : String, searchHeader header.data = none →
      header_regex_match header = .error () := by
  refine ⟨by rfl, by rfl, ?_⟩
  intro header h
  unfold header_regex_match
  rw [h]

/-- Witness for C8: the universal parse-error clause at a concrete
malformed header. -/
theorem header_regex_match_spec_witness :
    header_regex_match "hello world" = .error () :=
  header_regex_match_spec.2.2 "hello world" (by rfl)

/-! ### agents.py: extraction orchestrator (GCNExtractorAgent)

The LangGraph wiring is `START -> text_split -> router_node`, then a
conditional dispatch from `router_node` on `current_label` to one of the
extractor nodes (or END on the sentinel `"end_loop"`), and an unconditional
edge from every extractor node back to `router_node`.  LLM chains are
oracle fields of `ExtractEnv`; `.error` models a raised exception. -/

/-- Keys of `chains.ALLOWED_PARAGRAPH_LABELS`. -/
def ALLOWED_PARAGRAPH_LABELS : List String :=
  ["HeaderInformation", "AuthorList", "ScientificContent", "ExternalLinks",
   "ContactInformation", "Acknowledgements", "CitationInstructions", "Correction"]

/-- State carried through the extraction workflow (`agents.CircularState`).
Paragraph texts and extracted values are strings here; extracted values are
opaque to the orchestrator. -/
structure CircularState where
  raw_text : String
  paragraphs : Dict String
  pending_labels : List String
  extracted_dset : Dict String
  current_label : String
deriving DecidableEq, Repr

/-- External capabilities used by the extraction workflow. -/
structure ExtractEnv where
  paragraphLabeler : List String → Except Unit (List String)
  parseAuthorship : String → Except Unit (Dict String)
  reportLabeler : String → Except Unit String
  quantityExtractor : String → Except Unit (Dict String)

/-- Python `label[:1].lower() + label[1:]`. -/
def lowerFirst (s : String) : String :=
  match s.data with
  | [] => ""
  | c :: cs => String.mk (c.toLower :: cs)

/-- Embedding of `agents.text_split`: split, classify (oracle), group.
Raises when no paragraphs are found, when the labeler chain fails, or when
grouping fails on a length mismatch. -/
def text_split (env : ExtractEnv) (state : CircularState) :
    Except Unit CircularState :=
  let paragraphs := split_text_into_paragraphs state.raw_text
  if paragraphs.isEmpty then .error ()
  else
    match env.paragraphLabeler paragraphs with
    | .error () => .error ()
    | .ok labels =>
      match group_paragraphs_by_labels paragraphs labels with
      | .error () => .error ()
      | .ok labeled_paragraphs =>
        .ok { state with paragraphs := labeled_paragraphs,
                         pending_labels := dictKeys labeled_paragraphs }

/-- Embedding of `agents.router_node`. -/
def router_node (state : CircularState) : CircularState :=
  match state.pending_labels with
  | [] => { state with current_label := "end_loop" }
  | l :: _ => { state with current_label := l }

/-- Embedding of `agents.extract_header_information`: raises when the
paragraph is blank or missing, or when the header parse fails; merges the
parsed header fields and pops the queue head on success. -/
def extract_header_information (state : CircularState) :
    Except Unit CircularState :=
  let paragraph := dictGetD state.paragraphs "HeaderInformation" ""
  if pyStrip paragraph = "" then .error ()
  else
    match header_regex_match paragraph with
    | .error () => .error ()
    | .ok extracted_info =>
      .ok { state with
              extracted_dset := dictMerge state.extracted_dset extracted_info,
              pending_labels := state.pending_labels.drop 1 }

/-- Embedding of `agents.extract_author_list`: a blank paragraph or a chain
failure is logged and skipped (queue still popped, nothing merged). -/
def extract_author_list (env : ExtractEnv) (state : CircularState) :
    Except Unit CircularState :=
  let updated_pending := state.pending_labels.drop 1
  let paragraph := dictGetD state.paragraphs "AuthorList" ""
  if pyStrip paragraph = "" then
    .ok { state with pending_labels := updated_pending }
  else
    match env.parseAuthorship paragraph with
    | .error () => .ok { state with pending_labels := updated_pending }
    | .ok responses =>
      .ok { state with
              extracted_dset := dictMerge state.extracted_dset responses,
              pending_labels := updated_pending }

/-- Embedding of `agents.extract_scientific_content`: a blank paragraph is
skipped, but a failure of either chain is re-raised (`raise` in both
`except` blocks), aborting the run. -/
def extract_scientific_content (env : ExtractEnv) (state : CircularState) :
    Except Unit CircularState :=
  let updated_pending := state.pending_labels.drop 1
  let paragraph := dictGetD state.paragraphs "ScientificContent" ""
  if pyStrip paragraph = "" then
    .ok { state with pending_labels := updated_pending }
  else
    match env.reportLabeler paragraph with
    | .error () => .error ()
    | .ok label =>
      match env.quantityExtractor paragraph with
      | .error () => .error ()
      | .ok quantity =>
        let extracted_info := dictMerge (dictMerge [] [("intent", label)]) quantity
        .ok { state with
                extracted_dset := dictMerge state.extracted_dset extracted_info,
                pending_labels := updated_pending }

/-- Embedding of `agents.retain_original_text`: stores the raw paragraph
under the label name with its first character lowercased; never raises. -/
def retain_original_text (state : CircularState) :
    Except Unit CircularState :=
  let current_label := state.current_label
  let updated_pending := state.pending_labels.drop 1
  let paragraph := dictGetD state.paragraphs current_label ""
  if pyStrip paragraph = "" then
    .ok { state with pending_labels := updated_pending }
  else
    let key := lowerFirst current_label
    .ok { state with
            extracted_dset := dictMerge state.extracted_dset [(key, paragraph)],
            pending_labels := updated_pending }

/-- Routing key of the conditional edge out of `router_node`. -/
def routeKey (state : CircularState) : String :=
  if ALLOWED_PARAGRAPH_LABELS.contains state.current_label
      || state.current_label = "end_loop"
  then state.current_label else "Unknown"

/-- Outcome of one router-plus-extractor step. -/
inductive StepRes where
  | next (s : CircularState)
  | halt (s : CircularState)
  | fatal
deriving DecidableEq, Repr

/-- One pass through `router_node` and the dispatched node of the compiled
graph: END on the `"end_loop"` key, otherwise the extractor chosen by the
conditional-edge mapping (every unrecognized key goes to verbatim
retention). -/
def stepOnce (env : ExtractEnv) (s0 : CircularState) : StepRes :=
  let s := router_node s0
  let k := routeKey s
  if k = "end_loop" then .halt s
  else
    let r : Except Unit CircularState :=
      if k = "HeaderInformation" then extract_header_information s
      else if k = "AuthorList" then extract_author_list env s
      else if k = "ScientificContent" then extract_scientific_content env s
      else retain_original_text s
    match r with
    | .error () => .fatal
    | .ok s1 => .next s1

/-- Result of driving the extraction loop with fuel. -/
inductive LoopRes where
  | done (final : CircularState) (steps : Nat)
  | fatal (steps : Nat)
  | fuelOut
deriving DecidableEq, Repr

/-- Fuel-driven loop `router_node -> extractor -> router_node -> ...`,
counting completed extraction steps. -/
def runLoop (env : ExtractEnv) : Nat → CircularState → LoopRes
  | 0, s =>
    match stepOnce env s with
    | .halt s1 => .done s1 0
    | _ => .fuelOut
  | fuel + 1, s =>
    match stepOnce env s with
    | .halt s1 => .done s1 0
    | .fatal => .fatal 0
    | .next s1 =>
      match runLoop env fuel s1 with
      | .done f k => .done f (k + 1)
      | .fatal k => .fatal (k + 1)
      | .fuelOut => .fuelOut

/-- Whole `GCNExtractorAgent().invoke` run: `text_split` then the loop,
with fuel equal to the number of grouped labels. -/
def runExtractor (env : ExtractEnv) (raw : String) :
    Except Unit CircularState :=
  let init : CircularState :=
    { raw_text := raw, paragraphs := [], pending_labels := [],
      extracted_dset := [], current_label := "end_loop" }
  match text_split env init with
  | .error () => .error ()
  | .ok s1 =>
    match runLoop env s1.pending_labels.length s1 with
    | .done f _ => .ok f
    | _ => .error ()

/-! ### Extraction-loop lemmas -/

theorem extract_header_information_cases (s : CircularState) :
    extract_header_information s = .error () ∨
      ∃ s1, extract_header_information s = .ok s1
        ∧ s1.pending_labels = s.pending_labels.drop 1 := by
  unfold extract_header_information
  by_cases hb : pyStrip (dictGetD s.paragraphs "HeaderInformation" "") = ""
  · left; simp [hb]
  · cases hm : header_regex_match (dictGetD s.paragraphs "HeaderInformation" "") with
    | error e => left; simp [hb, hm]
    | ok info =>
      right
      exact ⟨{ s with extracted_dset := dictMerge s.extracted_dset info,
                      pending_labels := s.pending_labels.drop 1 },
             by simp [hb, hm], rfl⟩

theorem extract_author_list_cases (env : ExtractEnv) (s : CircularState) :
    ∃ s1, extract_author_list env s = .ok s1
      ∧ s1.pending_labels = s.pending_labels.drop 1 := by
  unfold extract_author_list
  by_cases hb : pyStrip (dictGetD s.paragraphs "AuthorList" "") = ""
  · exact ⟨{ s with pending_labels := s.pending_labels.drop 1 }, by simp [hb], rfl⟩
  · cases hm : env.parseAuthorship (dictGetD s.paragraphs "AuthorList" "") with
    | error e =>
      exact ⟨{ s with pending_labels := s.pending_labels.drop 1 },
             by simp [hb, hm], rfl⟩
    | ok responses =>
      exact ⟨{ s with extracted_dset := dictMerge s.extracted_dset responses,
                      pending_labels := s.pending_labels.drop 1 },
             by simp [hb, hm], rfl⟩

theorem extract_scientific_content_cases (env : ExtractEnv) (s : CircularState) :
    extract_scientific_content env s = .error () ∨
      ∃ s1, extract_scientific_content env s = .ok s1
        ∧ s1.pending_labels = s.pending_labels.drop 1 := by
  unfold extract_scientific_content
  by_cases hb : pyStrip (dictGetD s.paragraphs "ScientificContent" "") = ""
  · right
    exact ⟨{ s with pending_labels := s.pending_labels.drop 1 }, by simp [hb], rfl⟩
  · cases hm : env.reportLabeler (dictGetD s.paragraphs "ScientificContent" "") with
    | error e => left; simp [hb, hm]
    | ok label =>
      cases hq : env.quantityExtractor (dictGetD s.paragraphs "ScientificContent" "") with
      | error e => left; simp [hb, hm, hq]
      | ok quantity =>
        right
        exact ⟨{ s with
                   extracted_dset := dictMerge s.extracted_dset
                     (dictMerge (dictMerge [] [("intent", label)]) quantity),
                   pending_labels := s.pending_labels.drop 1 },
               by simp [hb, hm, hq], rfl⟩

theorem retain_original_text_cases (s : CircularState) :
    ∃ s1, retain_original_text s = .ok s1
      ∧ s1.pending_labels = s.pending_labels.drop 1 := by
  unfold retain_original_text
  by_cases hb : pyStrip (dictGetD s.paragraphs s.current_label "") = ""
  · exact ⟨{ s with pending_labels := s.pending_labels.drop 1 }, by simp [hb], rfl⟩
  · exact ⟨{ s with
               extracted_dset := dictMerge s.extracted_dset
                 [(lowerFirst s.current_label, dictGetD s.paragraphs s.current_label "")],
               pending_labels := s.pending_labels.drop 1 },
           by simp [hb], rfl⟩

/-- On an empty queue the router emits the sentinel and the graph halts. -/
theorem stepOnce_nil (env : ExtractEnv) (s : CircularState)
    (h : s.pending_labels = []) :
    stepOnce env s = .halt { s with current_label := "end_loop" } := by
  have hr : router_node s = { s with current_label := "end_loop" } := by
    unfold router_node; rw [h]
  unfold stepOnce
  rw [hr]
  have hk : routeKey { s with current_label := "end_loop" } = "end_loop" := by
    simp [routeKey, ALLOWED_PARAGRAPH_LABELS]
  simp [hk]

/-- A non-sentinel head label dispatches to an extractor node, which either
raises (fatal) or pops exactly the head of the queue. -/
theorem stepOnce_cons (env : ExtractEnv) (s : CircularState) (l : String)
    (rest : List String) (hp : s.pending_labels = l :: rest)
    (hl : l ≠ "end_loop") :
    stepOnce env s = .fatal ∨
      ∃ s1, stepOnce env s = .next s1 ∧ s1.pending_labels = rest := by
  have hr : router_node s = { s with current_label := l } := by
    unfold router_node; rw [hp]
  set sr : CircularState := { s with current_label := l } with hsr
  have hpend : sr.pending_labels = l :: rest := by rw [hsr]; exact hp
  have hdrop : sr.pending_labels.drop 1 = rest := by rw [hpend]; rfl
  have hkne : routeKey sr ≠ "end_loop" := by
    unfold routeKey
    by_cases hc : (ALLOWED_PARAGRAPH_LABELS.contains sr.current_label
        || sr.current_label = "end_loop") = true
    · rw [if_pos hc]
      simpa [hsr] using hl
    · rw [if_neg hc]
      decide
  have hso : stepOnce env s =
      (if routeKey sr = "end_loop" then StepRes.halt sr
       else
         match (if routeKey sr = "HeaderInformation" then extract_header_information sr
           else if routeKey sr = "AuthorList" then extract_author_list env sr
           else if routeKey sr = "ScientificContent" then extract_scientific_content env sr
           else retain_original_text sr) with
         | .error () => StepRes.fatal
         | .ok s1 => StepRes.next s1) := by
    unfold stepOnce
    rw [hr]
  rw [hso, if_neg hkne]
  by_cases h1 : routeKey sr = "HeaderInformation"
  · rw [if_pos h1]
    rcases extract_header_information_cases sr with he | ⟨s1, he, hs1⟩
    · left; rw [he]
    · right; exact ⟨s1, by rw [he], by rw [hs1, hdrop]⟩
  · rw [if_neg h1]
    by_cases h2 : routeKey sr = "AuthorList"
    · rw [if_pos h2]
      rcases extract_author_list_cases env sr with ⟨s1, he, hs1⟩
      right; exact ⟨s1, by rw [he], by rw [hs1, hdrop]⟩
    · rw [if_neg h2]
      by_cases h3 : routeKey sr = "ScientificContent"
      · rw [if_pos h3]
        rcases extract_scientific_content_cases env sr with he | ⟨s1, he, hs1⟩
        · left; rw [he]
        · right; exact ⟨s1, by rw [he], by rw [hs1, hdrop]⟩
      · rw [if_neg h3]
        rcases retain_original_text_cases sr with ⟨s1, he, hs1⟩
        right; exact ⟨s1, by rw [he], by rw [hs1, hdrop]⟩

/-- Sufficient fuel: the loop never runs out, and a completed run performs
exactly one step per queued label and ends with an empty queue. -/
theorem runLoop_spec (env : ExtractEnv) :
    ∀ (fuel : Nat) (s : CircularState), "end_loop" ∉ s.pending_labels →
      s.pending_labels.length ≤ fuel →
      runLoop env fuel s ≠ .fuelOut
      ∧ (∀ f n, runLoop env fuel s = .done f n →
          n = s.pending_labels.length ∧ f.pending_labels = []) := by
  intro fuel
  induction fuel with
  | zero =>
    intro s hno hlen
    have hnil : s.pending_labels = [] := List.length_eq_zero.mp (Nat.le_zero.mp hlen)
    have hs := stepOnce_nil env s hnil
    constructor
    · simp [runLoop, hs]
    · intro f n hrun
      simp only [runLoop, hs] at hrun
      cases hrun
      exact ⟨by rw [hnil]; rfl, hnil⟩
  | succ fuel ih =>
    intro s hno hlen
    cases hp : s.pending_labels with
    | nil =>
      have hs := stepOnce_nil env s hp
      constructor
      · simp [runLoop, hs]
      · intro f n hrun
        simp only [runLoop, hs] at hrun
        cases hrun
        exact ⟨by simp [hp], hp⟩
    | cons l rest =>
      have hl : l ≠ "end_loop" := by
        intro h
        exact hno (by rw [hp, h]; exact List.mem_cons_self _ _)
      have hno' : "end_loop" ∉ rest := by
        intro h
        exact hno (by rw [hp]; exact List.mem_cons_of_mem _ h)
      have hlen' : rest.length ≤ fuel := by
        have := hlen
        rw [hp] at this
        simpa using Nat.lt_succ_iff.mp (Nat.lt_of_lt_of_le (Nat.lt_succ_self _) this)
      rcases stepOnce_cons env s l rest hp hl with hstep | ⟨s1, hstep, hs1⟩
      · constructor
        · simp [runLoop, hstep]
        · intro f n hrun
          simp [runLoop, hstep] at hrun
      · have ihs := ih s1 (by rw [hs1]; exact hno') (by rw [hs1]; exact hlen')
        constructor
        · intro hcon
          simp only [runLoop, hstep] at hcon
          cases hrec : runLoop env fuel s1 with
          | done f k => rw [hrec] at hcon; cases hcon
          | fatal k => rw [hrec] at hcon; cases hcon
          | fuelOut => exact ihs.1 hrec
        · intro f n hrun
          simp only [runLoop, hstep] at hrun
          cases hrec : runLoop env fuel s1 with
          | done g k =>
            rw [hrec] at hrun
            cases hrun
            have hk := ihs.2 _ _ hrec
            refine ⟨?_, hk.2⟩
            have hkr : k = rest.length := by
              have := hk.1
              rw [hs1] at this
              exact this
            simp [hp, hkr]
          | fatal k => rw [hrec] at hrun; cases hrun
          | fuelOut => rw [hrec] at hrun; cases hrun

/-- Trivial environment in which every chain raises. -/
def envAllFail : ExtractEnv :=
  { paragraphLabeler := fun _ => .error (),
    parseAuthorship := fun _ => .error (),
    reportLabeler := fun _ => .error (),
    quantityExtractor := fun _ => .error () }

/-- State whose classifier emitted the reserved sentinel as a label. -/
def csEndLoop : CircularState :=
  { raw_text := "", paragraphs := [("end_loop", "x")],
    pending_labels := ["end_loop"], extracted_dset := [],
    current_label := "end_loop" }

/-- Counterexample to C1 as stated: a classification yielding the single
label `"end_loop"` makes the run halt after 0 extraction steps (not
`len(distinct labels) = 1`) with the queue still non-empty, because the
conditional edge routes the sentinel value straight to END. -/
theorem extraction_loop_end_loop_counterexample :
    runLoop envAllFail 1 csEndLoop = .done csEndLoop 0
    ∧ csEndLoop.pending_labels ≠ []
    ∧ csEndLoop.pending_labels.length = 1 := by
  refine ⟨by rfl, by decide, by decide⟩

/-- Claim C1 (amended: provided no classifier label equals the reserved
sentinel `"end_loop"`): the loop halts exactly on an empty queue, every
non-halting step pops exactly the head of the queue and never re-adds an
entry, and with fuel at least the queue length the run cannot diverge; a
run that completes performs exactly `len(distinct labels)` extraction steps
and terminates with an empty queue. -/
theorem extraction_loop_spec (env : ExtractEnv) (s : CircularState)
    (hno : "end_loop" ∉ s.pending_labels) :
    ((∃ s1, stepOnce env s = .halt s1) ↔ s.pending_labels = [])
    ∧ (∀ s1, stepOnce env s = .next s1 →
        s.pending_labels ≠ [] ∧ s1.pending_labels = s.pending_labels.tail)
    ∧ ∀ fuel, s.pending_labels.length ≤ fuel →
        runLoop env fuel s ≠ .fuelOut
        ∧ (∀ f n, runLoop env fuel s = .done f n →
            n = s.pending_labels.length ∧ f.pending_labels = []) := by
  refine ⟨?_, ?_, ?_⟩
  · constructor
    · rintro ⟨s1, hs1⟩
      cases hp : s.pending_labels with
      | nil => rfl
      | cons l rest =>
        have hl : l ≠ "end_loop" := by
          intro h
          exact hno (by rw [hp, h]; exact List.mem_cons_self _ _)
        rcases stepOnce_cons env s l rest hp hl with hstep | ⟨s2, hstep, _⟩
        · rw [hstep] at hs1; cases hs1
        · rw [hstep] at hs1; cases hs1
    · intro hp
      exact ⟨_, stepOnce_nil env s hp⟩
  · intro s1 hs1
    cases hp : s.pending_labels with
    | nil =>
      rw [stepOnce_nil env s hp] at hs1
      cases hs1
    | cons l rest =>
      have hl : l ≠ "end_loop" := by
        intro h
        exact hno (by rw [hp, h]; exact List.mem_cons_self _ _)
      rcases stepOnce_cons env s l rest hp hl with hstep | ⟨s2, hstep, hpop⟩
      · rw [hstep] at hs1; cases hs1
      · rw [hstep] at hs1
        cases hs1
        exact ⟨by simp, by simp [hpop, hp]⟩
  · intro fuel hlen
    exact runLoop_spec env fuel s hno hlen

/-- Concrete state with two pending labels, used by witnesses. -/
def csTwoLabels : CircularState :=
  { raw_text := "", paragraphs := [("Observation", "text"), ("ExternalLinks", "link")],
    pending_labels := ["Observation", "ExternalLinks"], extracted_dset := [],
    current_label := "end_loop" }

/-- Witness for the amended C1 at a concrete two-label document. -/
theorem extraction_loop_spec_witness :
    ("end_loop" ∉ csTwoLabels.pending_labels)
    ∧ ((∃ s1, stepOnce envAllFail csTwoLabels = .halt s1)
        ↔ csTwoLabels.pending_labels = [])
    ∧ (∀ s1, stepOnce envAllFail csTwoLabels = .next s1 →
        csTwoLabels.pending_labels ≠ []
        ∧ s1.pending_labels = csTwoLabels.pending_labels.tail)
    ∧ ∀ fuel, csTwoLabels.pending_labels.length ≤ fuel →
        runLoop envAllFail fuel csTwoLabels ≠ .fuelOut
        ∧ (∀ f n, runLoop envAllFail fuel csTwoLabels = .done f n →
            n = csTwoLabels.pending_labels.length ∧ f.pending_labels = []) := by
  refine ⟨by decide, ?_⟩
  exact extraction_loop_spec envAllFail csTwoLabels (by decide)

/-! ### Claim C3: extractor-failure handling -/

/-- Well-formed header paragraph used in concrete runs. -/
def hdrOk : String := "TITLE: GCN CIRCULAR\nNUMBER: 1\nSUBJECT: S\nDATE: D\nFROM: N"

/-- Concrete grouped document with labels `[HeaderInformation, AuthorList,
ScientificContent]`, as in the claim scenario. -/
def csHAS : CircularState :=
  { raw_text := "",
    paragraphs := [("HeaderInformation", hdrOk), ("AuthorList", "A. B (X)"),
                   ("ScientificContent", "sci text")],
    pending_labels := ["HeaderInformation", "AuthorList", "ScientificContent"],
    extracted_dset := [], current_label := "end_loop" }

/-- Environment in which only the author-list chain fails. -/
def cenvAFail : ExtractEnv :=
  { paragraphLabeler := fun _ => .error (),
    parseAuthorship := fun _ => .error (),
    reportLabeler := fun _ => .ok "NEW_EVENT_DETECTION",
    quantityExtractor := fun _ => .ok [("time_and_duration", "t")] }

/-- Environment in which only the scientific-content report labeler fails. -/
def cenvSciFail : ExtractEnv :=
  { paragraphLabeler := fun _ => .error (),
    parseAuthorship := fun _ => .ok [("collaboration", "null")],
    reportLabeler := fun _ => .error (),
    quantityExtractor := fun _ => .ok [] }

/-- Counterexample to C3 as stated: for the `[H, A, S]` document, a failure
of the ScientificContent extractor chain is not skipped — the run aborts
after 2 steps (`raise` in the `except` block of
`extract_scientific_content`), so the run does not continue to completion
for that non-mandatory label. -/
theorem sci_failure_aborts_counterexample :
    runLoop cenvSciFail 3 csHAS = .fatal 2 := by rfl

/-- Claim C3 (amended): a failure of the AuthorList extractor is logged and
skipped — nothing merged, the queue head still popped — and a run with a
failing AuthorList extractor completes with the header and
scientific-content fields only; failure of the mandatory HeaderInformation
extractor (blank paragraph or parse error) aborts the run; but failure of
either ScientificContent chain also aborts the run, unlike other
non-mandatory labels. -/
theorem extractor_failure_handling_spec :
    (∀ (env : ExtractEnv) (s : CircularState),
        env.parseAuthorship (dictGetD s.paragraphs "AuthorList" "") = .error () →
        extract_author_list env s =
          .ok { s with pending_labels := s.pending_labels.drop 1 })
  ∧ (∀ (env : ExtractEnv) (s : CircularState),
        pyStrip (dictGetD s.paragraphs "ScientificContent" "") ≠ "" →
        env.reportLabeler (dictGetD s.paragraphs "ScientificContent" "") = .error () →
        extract_scientific_content env s = .error ())
  ∧ (∀ s : CircularState,
        header_regex_match (dictGetD s.paragraphs "HeaderInformation" "") = .error () →
        extract_header_information s = .error ())
  ∧ runLoop cenvAFail 3 csHAS =
      .done { csHAS with
                pending_labels := [],
                extracted_dset :=
                  [("circularId", "1"), ("subject", "S"), ("createdOn", "D"),
                   ("submitter", "N"), ("email", ""),
                   ("intent", "NEW_EVENT_DETECTION"), ("time_and_duration", "t")] } 3 := by
  refine ⟨?_, ?_, ?_, by rfl⟩
  · intro env s hm
    unfold extract_author_list
    by_cases hb : pyStrip (dictGetD s.paragraphs "AuthorList" "") = ""
    · simp [hb]
    · simp [hb, hm]
  · intro env s hb hm
    unfold extract_scientific_content
    simp [hb, hm]
  · intro s hm
    unfold extract_header_information
    by_cases hb : pyStrip (dictGetD s.paragraphs "HeaderInformation" "") = ""
    · simp [hb]
    · simp [hb, hm]

/-- Witness for the amended C3 at concrete states and environments. -/
theorem extractor_failure_handling_spec_witness :
    extract_author_list cenvAFail csHAS =
      .ok { csHAS with pending_labels := ["AuthorList", "ScientificContent"] }
    ∧ extract_scientific_content cenvSciFail csHAS = .error ()
    ∧ extract_header_information
        { csHAS with paragraphs := [("HeaderInformation", "bad header")] } = .error () :=
  ⟨extractor_failure_handling_spec.1 cenvAFail csHAS (by rfl),
   extractor_failure_handling_spec.2.1 cenvSciFail csHAS (by decide) (by rfl),
   extractor_failure_handling_spec.2.2.1
     { csHAS with paragraphs := [("HeaderInformation", "bad header")] } (by rfl)⟩

/-! ### Claim C9: shallow-merge semantics of accumulated results -/

/-- Claim C9: every successful extraction step merges its record into
`extracted_dset` by shallow key overwrite.  The first two conjuncts are the
merge semantics (keys absent from the new record keep their old value; keys
of the new record take its value, so the most recently run extractor wins);
the remaining conjuncts show that each extractor node produces exactly
`dictMerge old new` on success, for every state in a run. -/
theorem shallow_merge_spec :
    (∀ (a b : Dict String) (k : String), dictGet b k = none →
        dictGet (dictMerge a b) k = dictGet a k)
  ∧ (∀ (a b : Dict String) (k v : String), (dictKeys b).Nodup →
        dictGet b k = some v → dictGet (dictMerge a b) k = some v)
  ∧ (∀ s info, pyStrip (dictGetD s.paragraphs "HeaderInformation" "") ≠ "" →
        header_regex_match (dictGetD s.paragraphs "HeaderInformation" "") = .ok info →
        extract_header_information s =
          .ok { s with extracted_dset := dictMerge s.extracted_dset info,
                       pending_labels := s.pending_labels.drop 1 })
  ∧ (∀ (env : ExtractEnv) (s : CircularState) responses,
        pyStrip (dictGetD s.paragraphs "AuthorList" "") ≠ "" →
        env.parseAuthorship (dictGetD s.paragraphs "AuthorList" "") = .ok responses →
        extract_author_list env s =
          .ok { s with extracted_dset := dictMerge s.extracted_dset responses,
                       pending_labels := s.pending_labels.drop 1 })
  ∧ (∀ (env : ExtractEnv) (s : CircularState) label quantity,
        pyStrip (dictGetD s.paragraphs "ScientificContent" "") ≠ "" →
        env.reportLabeler (dictGetD s.paragraphs "ScientificContent" "") = .ok label →
        env.quantityExtractor (dictGetD s.paragraphs "ScientificContent" "") = .ok quantity →
        extract_scientific_content env s =
          .ok { s with
                  extracted_dset := dictMerge s.extracted_dset
                    (dictMerge (dictMerge [] [("intent", label)]) quantity),
                  pending_labels := s.pending_labels.drop 1 })
  ∧ (∀ s : CircularState, pyStrip (dictGetD s.paragraphs s.current_label "") ≠ "" →
        retain_original_text s =
          .ok { s with
                  extracted_dset := dictMerge s.extracted_dset
                    [(lowerFirst s.current_label, dictGetD s.paragraphs s.current_label "")],
                  pending_labels := s.pending_labels.drop 1 }) := by
  refine ⟨?_, ?_, ?_, ?_, ?_, ?_⟩
  · intro a b k h
    exact dictGet_merge_of_notRight b a k h
  · intro a b k v hnd h
    exact dictGet_merge_of_right b a k v hnd h
  · intro s info hb hm
    unfold extract_header_information
    simp [hb, hm]
  · intro env s responses hb hm
    unfold extract_author_list
    simp [hb, hm]
  · intro env s label quantity hb hm hq
    unfold extract_scientific_content
    simp [hb, hm, hq]
  · intro s hb
    unfold retain_original_text
    simp [hb]

/-- Witness for C9: merge semantics and a node-level merge at concrete
inputs (prior value kept, duplicate key overwritten by the newer record). -/
theorem shallow_merge_spec_witness :
    dictGet (dictMerge [("a", "1"), ("b", "2")] [("b", "9")]) "a" =
      dictGet [("a", "1"), ("b", "2")] "a"
    ∧ dictGet (dictMerge [("a", "1"), ("b", "2")] [("b", "9")]) "b" = some "9"
    ∧ extract_header_information csHAS =
        .ok { csHAS with
                extracted_dset := dictMerge csHAS.extracted_dset
                  [("circularId", "1"), ("subject", "S"), ("createdOn", "D"),
                   ("submitter", "N"), ("email", "")],
                pending_labels := ["AuthorList", "ScientificContent"] } :=
  ⟨shallow_merge_spec.1 [("a", "1"), ("b", "2")] [("b", "9")] "a" (by rfl),
   shallow_merge_spec.2.1 [("a", "1"), ("b", "2")] [("b", "9")] "b" "9"
     (by decide) (by rfl),
   shallow_merge_spec.2.2.1 csHAS
     [("circularId", "1"), ("subject", "S"), ("createdOn", "D"),
      ("submitter", "N"), ("email", "")] (by decide) (by rfl)⟩

/-! ### core._run_extraction (claim C10) -/

/-- Result of the top-level extraction entry point: the empty dict or the
final orchestrator state. -/
inductive ExtractionResult where
  | empty
  | final (s : CircularState)
deriving DecidableEq, Repr

/-- Modelled from the spec: `llm_client.basicConfig` (the `llm_client`
module is not under `src/`).  The spec treats LLM-client configuration as
an external collaborator with no failure mode of its own, so it is a
non-raising no-op here. -/
def basicConfig : Unit := ()

/-- Embedding of `core._run_extraction`: the file read is wrapped in
try/except returning `{}`; then the LLM client is configured (outside any
try block); then the whole agent construction and invocation is wrapped in
try/except returning `{}`; otherwise the final state is returned. -/
def _run_extraction (env : ExtractEnv) (readFile : Except Unit String) :
    ExtractionResult :=
  match readFile with
  | .error () => .empty
  | .ok text =>
    let _cfg := basicConfig
    match runExtractor env text with
    | .error () => .empty
    | .ok final_state => .final final_state

/-- Claim C10: `_run_extraction` is total — for every read outcome and
every orchestrator environment it returns the empty mapping when the file
read fails or when the orchestrator run fails for any reason, and the final
orchestrator state otherwise. -/
theorem run_extraction_spec (env : ExtractEnv) (readFile : Except Unit String) :
    (∀ e : Unit, readFile = .error e → _run_extraction env readFile = .empty)
  ∧ (∀ text, readFile = .ok text → runExtractor env text = .error () →
      _run_extraction env readFile = .empty)
  ∧ (∀ text f, readFile = .ok text → runExtractor env text = .ok f →
      _run_extraction env readFile = .final f) := by
  refine ⟨?_, ?_, ?_⟩
  · intro e h
    subst h
    rfl
  · intro text h hrun
    subst h
    simp [_run_extraction, hrun]
  · intro text f h hrun
    subst h
    simp [_run_extraction, hrun]

/-- Witness for C10: a failed read and a failed orchestrator run (the
classifier chain raising) both yield the empty mapping. -/
theorem run_extraction_spec_witness :
    _run_extraction envAllFail (.error ()) = .empty
    ∧ _run_extraction envAllFail (.ok "some circular text") = .empty :=
  ⟨(run_extraction_spec envAllFail (.error ())).1 () rfl,
   (run_extraction_spec envAllFail (.ok "some circular text")).2.1
     "some circular text" rfl (by rfl)⟩

/-! ### agents.py: query orchestrator (GraphQAAgent)

The LangGraph wiring is `START -> guardrails`, a conditional edge from
`guardrails` on `next_action` to `generate_cypher` or END, a plain edge
`generate_cypher -> execute_cypher`, a conditional edge from
`execute_cypher` to `correct_cypher` or `generate_final_answer`, a
conditional edge from `correct_cypher` to `execute_cypher` or END, and
`generate_final_answer -> END`.  The oracle fields of `QAEnv` stand for the
guardrail, text-to-cypher and corrector chains (already composed with
`extract_cypher`) and the database session; execution and correction
oracles are indexed by the invocation number so that per-attempt outcomes
can be specified. -/

/-- Fixed refusal message of the guardrails node (exact source literal,
including the triple-quoted indentation). -/
def refusalMsg : String :=
  "\n            I specialize exclusively in NASA's General Coordinates Network (GCN). Your question appears unrelated to this domain, so I cannot assist.\n        "

/-- Fixed failure message of the correction node. -/
def failMsg : String := "Failed to correct cypher"

/-- State carried through the query workflow (`agents.GraphQAState`).
The `answer` key of the TypedDict may be absent, hence `Option`. -/
structure GraphQAState where
  query : String
  cypher_statement : String
  cypher_error : String
  retry_count : Nat
  retrieved_chunks : List String
  answer : Option String
deriving DecidableEq, Repr

/-- External capabilities used by the query workflow. -/
structure QAEnv where
  guardrailsChain : Except Unit String
  text2cypher : Except Unit String
  runSession : Nat → String → Except String (List String)
  correctChain : Nat → Except Unit String

/-- Nodes of the compiled query graph (with an explicit terminal). -/
inductive QANode where
  | guardrailsNode
  | generate
  | execute
  | correct
  | finalAnswer
  | terminal
deriving DecidableEq, Repr

/-- Embedding of `agents.guardrails`: a chain failure defaults the decision
to "end" (fail-closed); decision "end" sets the fixed refusal answer and
routes to END, anything else routes to generation. -/
def guardrails (env : QAEnv) (state : GraphQAState) : GraphQAState × QANode :=
  let decision :=
    match env.guardrailsChain with
    | .ok output => output
    | .error () => "end"
  if decision = "end" then ({ state with answer := some refusalMsg }, .terminal)
  else (state, .generate)

/-- Embedding of `agents.generate_cypher`: when the chain raises, the local
variable `cypher_query` is never assigned, so the following read of it
raises `UnboundLocalError` — modelled as `.error` (the exception escapes
the node); otherwise the statement is stored and execution follows. -/
def generate_cypher (env : QAEnv) (state : GraphQAState) :
    Except Unit (GraphQAState × QANode) :=
  match env.text2cypher with
  | .error () => .error ()
  | .ok cypher_query =>
    .ok ({ state with cypher_statement := cypher_query }, .execute)

/-- Embedding of `agents.execute_cypher` (`n` is the index of this
execution attempt, threaded to the session oracle). -/
def execute_cypher (env : QAEnv) (n : Nat) (state : GraphQAState) :
    GraphQAState × QANode :=
  match env.runSession n state.cypher_statement with
  | .error e => ({ state with cypher_error := e }, .correct)
  | .ok results => ({ state with retrieved_chunks := results }, .finalAnswer)

/-- Query text produced by the corrector in `agents.correct_cypher`:
`cypher_query` is pre-initialized to the empty string and a chain failure
is logged and swallowed. -/
def correctedQuery (env : QAEnv) (n : Nat) : String :=
  match env.correctChain n with
  | .ok q => q
  | .error () => ""

/-- Embedding of `agents.correct_cypher`: the corrector chain is consulted
unconditionally at node entry; only afterwards is the retry budget
checked.  Within budget the statement is replaced, the counter incremented
and execution retried; over budget the fixed failure answer is set. -/
def correct_cypher (env : QAEnv) (n : Nat) (state : GraphQAState) :
    GraphQAState × QANode :=
  let cypher_query := correctedQuery env n
  let retry_count := state.retry_count
  if retry_count ≤ 2 then
    ({ state with cypher_statement := cypher_query,
                  retry_count := retry_count + 1 }, .execute)
  else
    ({ state with answer := some failMsg }, .terminal)

/-- Embedding of `agents.generate_final_answer`: returns no update. -/
def generate_final_answer (state : GraphQAState) : GraphQAState × QANode :=
  (state, .terminal)

/-- Capability-invocation counts observed during a run. -/
structure QATrace where
  guardCalls : Nat
  genCalls : Nat
  execCalls : Nat
  correctCalls : Nat
deriving DecidableEq, Repr

/-- Outcome of a query-orchestrator run. -/
inductive QAOut where
  | finished (s : GraphQAState) (tr : QATrace)
  | raised (tr : QATrace)
  | fuelOut
deriving DecidableEq, Repr

/-- Fuel-driven interpreter of the compiled query graph. -/
def runQAFrom (env : QAEnv) : Nat → QANode → GraphQAState → QATrace → QAOut
  | 0, _, _, _ => .fuelOut
  | fuel + 1, node, s, tr =>
    match node with
    | .terminal => .finished s tr
    | .guardrailsNode =>
      let tr1 : QATrace := { tr with guardCalls := tr.guardCalls + 1 }
      let p := guardrails env s
      runQAFrom env fuel p.2 p.1 tr1
    | .generate =>
      let tr1 : QATrace := { tr with genCalls := tr.genCalls + 1 }
      match generate_cypher env s with
      | .error () => .raised tr1
      | .ok p => runQAFrom env fuel p.2 p.1 tr1
    | .execute =>
      let n := tr.execCalls + 1
      let tr1 : QATrace := { tr with execCalls := n }
      let p := execute_cypher env n s
      runQAFrom env fuel p.2 p.1 tr1
    | .correct =>
      let n := tr.correctCalls + 1
      let tr1 : QATrace := { tr with correctCalls := n }
      let p := correct_cypher env n s
      runQAFrom env fuel p.2 p.1 tr1
    | .finalAnswer =>
      let p := generate_final_answer s
      runQAFrom env fuel p.2 p.1 tr

/-- Trace at the start of a run. -/
def emptyTrace : QATrace :=
  { guardCalls := 0, genCalls := 0, execCalls := 0, correctCalls := 0 }

/-- Whole `GraphQAAgent().invoke` run. -/
def runQA (env : QAEnv) (init : GraphQAState) (fuel : Nat) : QAOut :=
  runQAFrom env fuel .guardrailsNode init emptyTrace

/-- Initial query state with a zero retry counter and no answer key. -/
def qaInit : GraphQAState :=
  { query := "q", cypher_statement := "", cypher_error := "",
    retry_count := 0, retrieved_chunks := [], answer := none }

/-- Environment in which guardrail passes, generation succeeds and every
execution attempt fails. -/
def qaEnvAlwaysFail : QAEnv :=
  { guardrailsChain := .ok "continue", text2cypher := .ok "Q",
    runSession := fun _ _ => .error "syntax error",
    correctChain := fun _ => .ok "Q2" }

/-- Environment in which guardrail passes and the generator chain raises. -/
def qaEnvGenFail : QAEnv :=
  { guardrailsChain := .ok "continue", text2cypher := .error (),
    runSession := fun _ _ => .error "E", correctChain := fun _ => .ok "Q2" }

/-- Environment in which the guardrail chain itself raises. -/
def qaEnvGuardRaise : QAEnv :=
  { guardrailsChain := .error (), text2cypher := .ok "Q",
    runSession := fun _ _ => .error "E", correctChain := fun _ => .ok "Q2" }

/-- Environment in which everything succeeds. -/
def qaEnvOk : QAEnv :=
  { guardrailsChain := .ok "continue", text2cypher := .ok "Q",
    runSession := fun _ _ => .ok ["row1"], correctChain := fun _ => .ok "Q2" }

/-! ### Claim C5: fail-closed guardrail -/

/-- Claim C5: a guardrail capability failure makes the node behave exactly
as decision "end" (fail-closed); in either case the answer is the fixed
refusal string, the run goes straight to Terminal, and neither query
generation nor execution is ever invoked (their call counts stay zero). -/
theorem guardrail_fail_closed_spec (env : QAEnv) (init : GraphQAState)
    (h : env.guardrailsChain = .error () ∨ env.guardrailsChain = .ok "end") :
    guardrails env init = ({ init with answer := some refusalMsg }, .terminal)
    ∧ runQA env init 2 =
        .finished { init with answer := some refusalMsg }
          { guardCalls := 1, genCalls := 0, execCalls := 0, correctCalls := 0 } := by
  have hg : guardrails env init = ({ init with answer := some refusalMsg }, .terminal) := by
    rcases h with h | h <;> simp [guardrails, h]
  exact ⟨hg, by simp [runQA, runQAFrom, emptyTrace, hg]⟩

/-- Witness for C5 with a raising guardrail chain. -/
theorem guardrail_fail_closed_spec_witness :
    guardrails qaEnvGuardRaise qaInit =
      ({ qaInit with answer := some refusalMsg }, .terminal)
    ∧ runQA qaEnvGuardRaise qaInit 2 =
        .finished { qaInit with answer := some refusalMsg }
          { guardCalls := 1, genCalls := 0, execCalls := 0, correctCalls := 0 } :=
  guardrail_fail_closed_spec qaEnvGuardRaise qaInit (Or.inl rfl)

/-! ### Claim C2: correction retry budget -/

/-- Counterexample to C2 as stated: with every execution failing, the
corrector chain is invoked 4 times, not 3 — in particular it is invoked
once more after `retry_count` has reached 3, because `correct_cypher`
calls the chain before checking the budget.  (`retry_count` does reach
exactly 3 and the fixed failure message is produced.) -/
theorem correct_retry_counterexample :
    runQA qaEnvAlwaysFail qaInit 12 =
      .finished { query := "q", cypher_statement := "Q2",
                  cypher_error := "syntax error", retry_count := 3,
                  retrieved_chunks := [], answer := some failMsg }
        { guardCalls := 1, genCalls := 1, execCalls := 4, correctCalls := 4 } := by
  rfl

/-- Claim C2 (amended): in the Correct state the corrector capability is
always invoked first, even when the budget is exhausted; after the call,
if `retry_count > 2` the fixed failure answer is set and the machine goes
to Terminal, otherwise `retry_count` is incremented by exactly 1 and the
machine returns to Execute with the corrected query.  Hence for a question
that passes guardrail and whose every generated query fails execution,
`retry_count` reaches exactly 3, execution is attempted 4 times, the
corrector is invoked 4 times (not 3), and the run terminates with the
fixed failure message. -/
theorem correct_retry_spec (env : QAEnv) (init : GraphQAState)
    (hd : ∃ d, env.guardrailsChain = .ok d ∧ d ≠ "end")
    (hq : ∃ q, env.text2cypher = .ok q)
    (hx : ∀ n q, ∃ e, env.runSession n q = .error e)
    (h0 : init.retry_count = 0) :
    (∀ (s : GraphQAState) (n : Nat), s.retry_count ≤ 2 →
        correct_cypher env n s =
          ({ s with cypher_statement := correctedQuery env n,
                    retry_count := s.retry_count + 1 }, .execute))
    ∧ (∀ (s : GraphQAState) (n : Nat), 2 < s.retry_count →
        correct_cypher env n s = ({ s with answer := some failMsg }, .terminal))
    ∧ (match runQA env init 12 with
       | .finished s tr =>
         s.answer = some failMsg ∧ s.retry_count = 3
           ∧ tr.correctCalls = 4 ∧ tr.execCalls = 4 ∧ tr.genCalls = 1
       | .raised _ => False
       | .fuelOut => False) := by
  obtain ⟨d, hgd, hdne⟩ := hd
  obtain ⟨q, hqe⟩ := hq
  refine ⟨?_, ?_, ?_⟩
  · intro s n hle
    simp [correct_cypher, hle]
  · intro s n hgt
    simp [correct_cypher, Nat.not_le.mpr hgt]
  · obtain ⟨e1, he1⟩ := hx 1 q
    obtain ⟨e2, he2⟩ := hx 2 (correctedQuery env 1)
    obtain ⟨e3, he3⟩ := hx 3 (correctedQuery env 2)
    obtain ⟨e4, he4⟩ := hx 4 (correctedQuery env 3)
    simp [runQA, runQAFrom, emptyTrace, guardrails, generate_cypher,
          execute_cypher, correct_cypher, hgd, hdne, hqe, he1, he2, he3, he4, h0]

/-- Witness for the amended C2 in the always-failing environment. -/
theorem correct_retry_spec_witness :
    (∀ (s : GraphQAState) (n : Nat), s.retry_count ≤ 2 →
        correct_cypher qaEnvAlwaysFail n s =
          ({ s with cypher_statement := correctedQuery qaEnvAlwaysFail n,
                    retry_count := s.retry_count + 1 }, .execute))
    ∧ (∀ (s : GraphQAState) (n : Nat), 2 < s.retry_count →
        correct_cypher qaEnvAlwaysFail n s =
          ({ s with answer := some failMsg }, .terminal))
    ∧ (match runQA qaEnvAlwaysFail qaInit 12 with
       | .finished s tr =>
         s.answer = some failMsg ∧ s.retry_count = 3
           ∧ tr.correctCalls = 4 ∧ tr.execCalls = 4 ∧ tr.genCalls = 1
       | .raised _ => False
       | .fuelOut => False) :=
  correct_retry_spec qaEnvAlwaysFail qaInit
    ⟨"continue", rfl, by decide⟩ ⟨"Q", rfl⟩
    (fun n q => ⟨"syntax error", rfl⟩) rfl

/-! ### Claim C6: runs reach Terminal with a populated answer -/

/-- Acceptable outcome shape for an amended-C6 run: the run finishes (no
exception, no divergence) and the answer is the fixed refusal string, the
fixed failure string, or unchanged from the initial state (the
answer-synthesis node contributes no update). -/
def QAOutOk (init : GraphQAState) : QAOut → Prop
  | .finished s _ =>
    s.answer = some refusalMsg ∨ s.answer = some failMsg ∨ s.answer = init.answer
  | .raised _ => False
  | .fuelOut => False

/-- Counterexample to C6 as stated: when the question passes the guardrail
and the generator chain raises, the exception (an `UnboundLocalError` on
`cypher_query`) escapes the orchestrator — the run does not reach Terminal
with an answer. -/
theorem query_run_total_counterexample :
    runQA qaEnvGenFail qaInit 12 =
      .raised { guardCalls := 1, genCalls := 1, execCalls := 0, correctCalls := 0 } := by
  rfl

/-- Claim C6 (amended): provided the query-generator capability call does
not fail, every run reaches Terminal and no exception escapes; the answer
is the fixed refusal string on guardrail rejection, the fixed failure
string on retry exhaustion, and otherwise unchanged from the initial state
(on successful execution the answer-synthesis node returns no update, so
no synthesized answer is written). -/
theorem query_run_total_spec (env : QAEnv) (init : GraphQAState)
    (hgen : ∃ q, env.text2cypher = .ok q) (h0 : init.retry_count = 0) :
    QAOutOk init (runQA env init 12) := by
  obtain ⟨q, hqe⟩ := hgen
  cases hgd : env.guardrailsChain with
  | error e =>
    cases e
    simp [QAOutOk, runQA, runQAFrom, emptyTrace, guardrails, hgd]
  | ok d =>
    by_cases hde : d = "end"
    · subst hde
      simp [QAOutOk, runQA, runQAFrom, emptyTrace, guardrails, hgd]
    · cases hx1 : env.runSession 1 q with
      | ok rows =>
        simp [QAOutOk, runQA, runQAFrom, emptyTrace, guardrails, generate_cypher,
              execute_cypher, generate_final_answer, hgd, hde, hqe, hx1]
      | error e1 =>
        cases hx2 : env.runSession 2 (correctedQuery env 1) with
        | ok rows =>
          simp [QAOutOk, runQA, runQAFrom, emptyTrace, guardrails, generate_cypher,
                execute_cypher, correct_cypher, generate_final_answer,
                hgd, hde, hqe, hx1, hx2, h0]
        | error e2 =>
          cases hx3 : env.runSession 3 (correctedQuery env 2) with
          | ok rows =>
            simp [QAOutOk, runQA, runQAFrom, emptyTrace, guardrails, generate_cypher,
                  execute_cypher, correct_cypher, generate_final_answer,
                  hgd, hde, hqe, hx1, hx2, hx3, h0]
          | error e3 =>
            cases hx4 : env.runSession 4 (correctedQuery env 3) with
            | ok rows =>
              simp [QAOutOk, runQA, runQAFrom, emptyTrace, guardrails, generate_cypher,
                    execute_cypher, correct_cypher, generate_final_answer,
                    hgd, hde, hqe, hx1, hx2, hx3, hx4, h0]
            | error e4 =>
              simp [QAOutOk, runQA, runQAFrom, emptyTrace, guardrails, generate_cypher,
                    execute_cypher, correct_cypher, generate_final_answer,
                    hgd, hde, hqe, hx1, hx2, hx3, hx4, h0]

/-- Witness for the amended C6 in the all-success environment. -/
theorem query_run_total_spec_witness :
    QAOutOk qaInit (runQA qaEnvOk qaInit 12) :=
  query_run_total_spec qaEnvOk qaInit ⟨"Q", rfl⟩ rfl

/-! ### Claim C7: generator failure -/

/-- Claim C7 concerns `agents.generate_cypher` on a failing chain.  The
code logs the failure without re-raising, but then reads the local
`cypher_query`, which was only assigned inside the `try` block — so the
node raises `UnboundLocalError` and the run aborts, instead of proceeding
to Execute with an empty query as the spec states (contrast
`agents.correct_cypher`, which pre-initializes `cypher_query = ""`).  This
theorem records the code behavior at the failing input: the node raises,
and a run that reaches generation with a failing generator ends in a
propagated exception with zero executions. -/
theorem generate_failure_raises (env : QAEnv) (init : GraphQAState)
    (hd : ∃ d, env.guardrailsChain = .ok d ∧ d ≠ "end")
    (hgen : env.text2cypher = .error ()) :
    (∀ s, generate_cypher env s = .error ())
    ∧ runQA env init 3 =
        .raised { guardCalls := 1, genCalls := 1, execCalls := 0, correctCalls := 0 } := by
  obtain ⟨d, hgd, hdne⟩ := hd
  refine ⟨fun s => by simp [generate_cypher, hgen], ?_⟩
  simp [runQA, runQAFrom, emptyTrace, guardrails, generate_cypher, hgd, hdne, hgen]

/-- Witness for C7 in the generator-failure environment. -/
theorem generate_failure_raises_witness :
    (∀ s, generate_cypher qaEnvGenFail s = .error ())
    ∧ runQA qaEnvGenFail qaInit 3 =
        .raised { guardCalls := 1, genCalls := 1, execCalls := 0, correctCalls := 0 } :=
  generate_failure_raises qaEnvGenFail qaInit ⟨"continue", rfl, by decide⟩ rfl

end AI4GCNpy
